import Mathlib

/-!
Verification of the `helloAPI` repository: a Django REST Framework CRUD API
over a single `users` table.  The definitions below are a shallow embedding,
translated from `src/users/models.py`, `src/users/serializers.py` and
`src/users/views.py`.  The database is modelled as a `List User`; timestamps
are abstract `Nat` clock values supplied by the caller; JSON request bodies
are records of `Option` fields (outer `Option` = key present in the body,
inner `Option` on nullable columns = JSON null).
-/

namespace HelloAPI

/-- Model of Python `str.lower` on one character (ASCII case folding:
uppercase A–Z maps to a–z, everything else is unchanged). -/
def lowerChar (c : Char) : Char :=
  if 65 ≤ c.toNat ∧ c.toNat ≤ 90 then Char.ofNat (c.toNat + 32) else c

/-- Model of Python `str.lower` (applied characterwise). -/
def lowerStr (s : String) : String :=
  ⟨s.data.map lowerChar⟩





/-- Python truthiness of an optional string column (both `None` and `""`
are falsy). -/
def truthy : Option String → Bool
  | none => false
  | some s => s != ""

/-- A row of the `users` table, from `src/users/models.py` (class `User`):
`id` auto primary key, `username` unique, `email` unique, nullable
`first_name` / `last_name`, `is_active` defaulting to true, and the two
timestamp columns. -/
structure User where
  id : Nat
  username : String
  email : String
  first_name : Option String
  last_name : Option String
  is_active : Bool
  created_at : Nat
  updated_at : Nat
deriving Repr, DecidableEq

/-- `src/users/models.py` `User.get_full_name`: first and last name joined by
a space when both are truthy, else `first_name` when truthy, else
`username`.  (Note: a lone truthy `last_name` falls through to `username`.) -/
def User.get_full_name (u : User) : String :=
  if truthy u.first_name && truthy u.last_name then
    (u.first_name.getD "") ++ " " ++ (u.last_name.getD "")
  else if truthy u.first_name then
    u.first_name.getD ""
  else
    u.username

/-- The email normalization done inside `User.save`
(`if self.email: self.email = self.email.lower()`). -/
def normEmail (e : String) : String :=
  if e != "" then lowerStr e else e

/-- `src/users/models.py` `User.save`: lowercase a truthy email, and refresh
`updated_at` (the `auto_now` column behaviour applied on every save). -/
def User.save (u : User) (now : Nat) : User :=
  { u with email := normEmail u.email, updated_at := now }


/-- `src/users/serializers.py` `UserSerializer.validate_email`: lowercase the
value, then reject when some record already holds it — any record when
creating (`self.instance is None`), any record other than the instance when
updating (`.exclude(id=self.instance.id)`). -/
def validate_email (db : List User) (inst : Option User) (value : String) :
    Except String String :=
  let value := lowerStr value
  match inst with
  | none =>
    if db.any (fun u => u.email == value) then
      Except.error "A user with this email already exists."
    else
      Except.ok value
  | some i =>
    if db.any (fun u => u.email == value && u.id != i.id) then
      Except.error "A user with this email already exists."
    else
      Except.ok value

/-- `src/users/serializers.py` `UserSerializer.validate_username`: the same
existence-check pattern as `validate_email`, without lowercasing. -/
def validate_username (db : List User) (inst : Option User) (value : String) :
    Except String String :=
  match inst with
  | none =>
    if db.any (fun u => u.username == value) then
      Except.error "A user with this username already exists."
    else
      Except.ok value
  | some i =>
    if db.any (fun u => u.username == value && u.id != i.id) then
      Except.error "A user with this username already exists."
    else
      Except.ok value

/-- A JSON request body for the `UserSerializer`.  Outer `Option` records
whether the key is present; `first_name` / `last_name` carry an inner
`Option` because the columns are nullable (`null=True`).  The read-only
keys `id`, `created_at`, `updated_at` may appear in a body but are ignored
by the serializer (`read_only_fields` in `UserSerializer.Meta`). -/
structure Payload where
  id : Option Nat := none
  username : Option String := none
  email : Option String := none
  first_name : Option (Option String) := none
  last_name : Option (Option String) := none
  is_active : Option Bool := none
  created_at : Option Nat := none
  updated_at : Option Nat := none
deriving Repr, DecidableEq

/-- The serializer's `validated_data` mapping: only writable fields, each
present exactly when it was supplied (and validated) in the body. -/
structure ValidatedData where
  username : Option String := none
  email : Option String := none
  first_name : Option (Option String) := none
  last_name : Option (Option String) := none
  is_active : Option Bool := none
deriving Repr, DecidableEq

/-- Validation of the `username` field: required unless doing a PATCH
(`patchMode`), not blank, `min_length=3` / `max_length=150` from
`extra_kwargs`, then `validate_username`. -/
def checkUsername (db : List User) (inst : Option User) (patchMode : Bool)
    (p : Payload) : Except String (Option String) :=
  match p.username with
  | none => if patchMode then Except.ok none else Except.error "This field is required."
  | some v =>
    if v == "" then Except.error "This field may not be blank."
    else if v.length < 3 then Except.error "Ensure this field has at least 3 characters."
    else if v.length > 150 then Except.error "Ensure this field has no more than 150 characters."
    else (validate_username db inst v).map some

/-- Validation of the `email` field: required unless doing a PATCH, not
blank, `max_length=254` from the model, then `validate_email` (which
lowercases). -/
def checkEmail (db : List User) (inst : Option User) (patchMode : Bool)
    (p : Payload) : Except String (Option String) :=
  match p.email with
  | none => if patchMode then Except.ok none else Except.error "This field is required."
  | some v =>
    if v == "" then Except.error "This field may not be blank."
    else if v.length > 254 then Except.error "Ensure this field has no more than 254 characters."
    else (validate_email db inst v).map some

/-- Validation of `first_name`: optional, nullable, blank allowed,
`max_length=100` from the model. -/
def checkFirstName (p : Payload) : Except String (Option (Option String)) :=
  match p.first_name with
  | none => Except.ok none
  | some none => Except.ok (some none)
  | some (some v) =>
    if v.length > 100 then Except.error "Ensure this field has no more than 100 characters."
    else Except.ok (some (some v))

/-- Validation of `last_name`: same rules as `first_name`. -/
def checkLastName (p : Payload) : Except String (Option (Option String)) :=
  match p.last_name with
  | none => Except.ok none
  | some none => Except.ok (some none)
  | some (some v) =>
    if v.length > 100 then Except.error "Ensure this field has no more than 100 characters."
    else Except.ok (some (some v))

/-- Validation of `is_active`: optional boolean (the model default makes it
not required). -/
def checkIsActive (p : Payload) : Except String (Option Bool) :=
  match p.is_active with
  | none => Except.ok none
  | some b => Except.ok (some b)

/-- Collect the error (if any) of one field's check under its field name. -/
def errOf (field : String) : Except String α → List (String × String)
  | Except.error m => [(field, m)]
  | Except.ok _ => []

/-- `serializer.is_valid()`: run every writable field's validation
(declaration order: username, email, first_name, last_name, is_active) and
either produce `validated_data` or the map of per-field errors.  Read-only
keys in the body are ignored; the object-level `validate` is the identity. -/
def runValidation (db : List User) (inst : Option User) (patchMode : Bool)
    (p : Payload) : Except (List (String × String)) ValidatedData :=
  let ru := checkUsername db inst patchMode p
  let re := checkEmail db inst patchMode p
  let rf := checkFirstName p
  let rl := checkLastName p
  let ra := checkIsActive p
  match ru, re, rf, rl, ra with
  | Except.ok u, Except.ok e, Except.ok f, Except.ok l, Except.ok a =>
    Except.ok ⟨u, e, f, l, a⟩
  | _, _, _, _, _ =>
    Except.error (errOf "username" ru ++ errOf "email" re ++ errOf "first_name" rf
      ++ errOf "last_name" rl ++ errOf "is_active" ra)

/-- `UserSerializer.create` (`User.objects.create(**validated_data)`): build
a row from the validated data — absent optional fields take the model
defaults (`is_active=True`, names NULL; username/email are always present
here because they are required on create) — assign `id` and `created_at`,
then run `User.save`. -/
def serializerCreate (vd : ValidatedData) (newId : Nat) (now : Nat) : User :=
  User.save
    { id := newId
      username := vd.username.getD ""
      email := vd.email.getD ""
      first_name := vd.first_name.getD none
      last_name := vd.last_name.getD none
      is_active := vd.is_active.getD true
      created_at := now
      updated_at := now } now

/-- `UserSerializer.update`: every mutable field falls back to the
instance's current value when absent from `validated_data`
(`validated_data.get(field, instance.field)`), then `instance.save()`. -/
def serializerUpdate (inst : User) (vd : ValidatedData) (now : Nat) : User :=
  User.save
    { inst with
      username := vd.username.getD inst.username
      email := vd.email.getD inst.email
      first_name := vd.first_name.getD inst.first_name
      last_name := vd.last_name.getD inst.last_name
      is_active := vd.is_active.getD inst.is_active } now

/-- Outcomes other than success: 404 from `get_object`, 400 from
`is_valid(raise_exception=True)`, and an unhandled Django `FieldError`
(surfacing as a 500). -/
inductive ApiError
  | notFound
  | badRequest (errors : List (String × String))
  | fieldError (field : String)
deriving Repr, DecidableEq

/-- `self.get_object()`: look the row up by primary key. -/
def getObject (db : List User) (uid : Nat) : Option User :=
  db.find? (fun u => u.id == uid)

/-- Persisting an updated row: the stored row with that id is replaced. -/
def replaceById (db : List User) (i : Nat) (u : User) : List User :=
  db.map (fun v => if v.id == i then u else v)

/-- `UserViewSet.create` (POST): validate the full body (PATCH semantics
off), then persist a new row with a server-assigned id. -/
def createUser (db : List User) (p : Payload) (newId : Nat) (now : Nat) :
    Except ApiError (User × List User) :=
  match runValidation db none false p with
  | Except.error es => Except.error (ApiError.badRequest es)
  | Except.ok vd =>
    let u := serializerCreate vd newId now
    Except.ok (u, db ++ [u])

/-- `UserViewSet.update`: 404 when the id is unknown, else validate
(`patchMode` is the `partial` flag: false for PUT, true for PATCH) and
persist `serializerUpdate`'s result. -/
def updateUser (db : List User) (uid : Nat) (patchMode : Bool) (p : Payload)
    (now : Nat) : Except ApiError (User × List User) :=
  match getObject db uid with
  | none => Except.error ApiError.notFound
  | some inst =>
    match runValidation db (some inst) patchMode p with
    | Except.error es => Except.error (ApiError.badRequest es)
    | Except.ok vd =>
      let u := serializerUpdate inst vd now
      Except.ok (u, replaceById db inst.id u)

/-- PUT `/api/users/{id}/`. -/
def putUser (db : List User) (uid : Nat) (p : Payload) (now : Nat) :
    Except ApiError (User × List User) :=
  updateUser db uid false p now

/-- PATCH `/api/users/{id}/` (`partial_update` delegates to `update` with
the partial flag set). -/
def patchUser (db : List User) (uid : Nat) (p : Payload) (now : Nat) :
    Except ApiError (User × List User) :=
  updateUser db uid true p now

/-- `UserViewSet.retrieve` (GET of one id): the serialized row, or 404. -/
def retrieveUser (db : List User) (uid : Nat) : Except ApiError User :=
  match getObject db uid with
  | none => Except.error ApiError.notFound
  | some u => Except.ok u

/-- Does `needle` occur at the start of `hay`? (Python `str.startswith` on
char lists, used to build substring containment.) -/
def startsWithChars : List Char → List Char → Bool
  | [], _ => true
  | _ :: _, [] => false
  | a :: as, b :: bs => a == b && startsWithChars as bs

/-- Does `needle` occur as a contiguous substring of `hay`? -/
def containsSub (hay needle : List Char) : Bool :=
  match hay with
  | [] => needle.isEmpty
  | _ :: t => startsWithChars needle hay || containsSub t needle

/-- SQL `ICONTAINS`: case-insensitive substring containment. -/
def icontains (hay needle : String) : Bool :=
  containsSub (lowerStr hay).data (lowerStr needle).data

/-- The columns declared on the `User` model in `src/users/models.py`.
Django resolves every `filter(...)` keyword against this list. -/
def userFieldNames : List String :=
  ["id", "username", "email", "first_name", "last_name", "is_active",
   "created_at", "updated_at"]

/-- The text value of a named column of a row (NULL reads as the empty
string for containment purposes). -/
def User.textField (u : User) : String → String
  | "username" => u.username
  | "email" => u.email
  | "first_name" => u.first_name.getD ""
  | "last_name" => u.last_name.getD ""
  | _ => ""

/-- Django `queryset.filter(field__icontains=needle)`: the column name is
resolved against the model's declared columns first; an unknown name (such
as the `name` used in `src/users/views.py`) raises `FieldError`. -/
def filterIContains (db : List User) (field : String) (needle : String) :
    Except ApiError (List User) :=
  if field ∈ userFieldNames then
    Except.ok (db.filter (fun u => icontains (u.textField field) needle))
  else
    Except.error (ApiError.fieldError field)

/-- `src/users/views.py` `get_queryset`'s `is_active` parsing: the strings
`true`, `1`, `yes` (case-insensitively) mean true, anything else false. -/
def parseBoolParam (s : String) : Bool :=
  lowerStr s == "true" || lowerStr s == "1" || lowerStr s == "yes"

/-- The optional `is_active` query-parameter filter applied by
`get_queryset`. -/
def activeFilter (db : List User) (isa : Option String) : List User :=
  match isa with
  | none => db
  | some s => db.filter (fun u => u.is_active == parseBoolParam s)

/-- `order_by('id')` — ascending, stable. -/
def sortById (db : List User) : List User :=
  List.insertionSort (fun a b => a.id ≤ b.id) db

/-- The model Meta ordering `['-created_at']` — newest first, stable. -/
def sortByCreatedAtDesc (db : List User) : List User :=
  List.insertionSort (fun a b => b.created_at ≤ a.created_at) db

/-- Query parameters of a List request. -/
structure QueryParams where
  is_active : Option String := none
  search : Option String := none
deriving Repr, DecidableEq

/-- `src/users/views.py` `UserViewSet.get_queryset`: optional `is_active`
filter, then — only for a truthy `search` — the OR of
`filter(name__icontains=search)` and `filter(email__icontains=search)`
(note the model declares no `name` column), then `order_by('id')`.  The
`list` action returns this queryset (no pagination class is configured in
the repository, and the list serializer only projects fields, so the record
sequence is the response order). -/
def getQueryset (db : List User) (q : QueryParams) : Except ApiError (List User) :=
  let qs := activeFilter db q.is_active
  match q.search with
  | none => Except.ok (sortById qs)
  | some s =>
    if s != "" then
      match filterIContains qs "name" s with
      | Except.error e => Except.error e
      | Except.ok a =>
        match filterIContains qs "email" s with
        | Except.error e => Except.error e
        | Except.ok b =>
          Except.ok (sortById (qs.filter (fun u => a.contains u || b.contains u)))
    else Except.ok (sortById qs)

/-- GET `/api/users/` (the `list` action's record sequence). -/
def listUsers (db : List User) (q : QueryParams) : Except ApiError (List User) :=
  getQueryset db q

/-- POST `/api/users/{id}/activate/`: unconditionally set `is_active=True`,
save, and answer with a status message plus the serialized user. -/
def activateUser (db : List User) (uid : Nat) (now : Nat) :
    Except ApiError (String × User × List User) :=
  match getObject db uid with
  | none => Except.error ApiError.notFound
  | some u =>
    let u2 := User.save { u with is_active := true } now
    Except.ok ("User activated successfully", u2, replaceById db u.id u2)

/-- POST `/api/users/{id}/deactivate/`: unconditionally set
`is_active=False`, save, and answer with a status message plus the
serialized user. -/
def deactivateUser (db : List User) (uid : Nat) (now : Nat) :
    Except ApiError (String × User × List User) :=
  match getObject db uid with
  | none => Except.error ApiError.notFound
  | some u =>
    let u2 := User.save { u with is_active := false } now
    Except.ok ("User deactivated successfully", u2, replaceById db u.id u2)

/-- GET `/api/users/active_users/`: `User.objects.filter(is_active=True)`,
which carries the model Meta ordering `['-created_at']`. -/
def active_users (db : List User) : List User :=
  sortByCreatedAtDesc (db.filter (fun u => u.is_active))

instance instIsTotalById : IsTotal User (fun a b => a.id ≤ b.id) :=
  ⟨fun a b => Nat.le_total a.id b.id⟩

instance instIsTransById : IsTrans User (fun a b => a.id ≤ b.id) :=
  ⟨fun _ _ _ h1 h2 => Nat.le_trans h1 h2⟩

/-- Concrete rows and bodies used to evaluate the theorems below on closed
inputs. -/
def c2u : User :=
  { id := 1, username := "ann", email := "ann@x.com", first_name := none,
    last_name := none, is_active := true, created_at := 10, updated_at := 10 }

def c3Old : User :=
  { id := 1, username := "old", email := "old@x.com", first_name := none,
    last_name := none, is_active := true, created_at := 10, updated_at := 10 }

def c3New : User :=
  { id := 2, username := "new", email := "new@x.com", first_name := none,
    last_name := none, is_active := true, created_at := 20, updated_at := 20 }

def c4OnlyLast : User :=
  { id := 3, username := "bob", email := "b@x.com", first_name := none,
    last_name := some "Lee", is_active := true, created_at := 0, updated_at := 0 }

def c5u : User :=
  { id := 4, username := "cara", email := "CARA@X.com", first_name := none,
    last_name := none, is_active := true, created_at := 2, updated_at := 2 }

def c6u : User :=
  { id := 1, username := "ann", email := "ann@x.com", first_name := none,
    last_name := none, is_active := true, created_at := 1, updated_at := 1 }

def c6p : Payload :=
  { username := some "ann", email := some "ann@x.com" }

def c7u : User :=
  { id := 1, username := "dora", email := "dora@x.com", first_name := none,
    last_name := none, is_active := true, created_at := 1, updated_at := 1 }

def c7p : Payload :=
  { email := some "NEW@X.com", first_name := some (some "Dora") }

def c8p : Payload :=
  { username := some "ann", email := some "Ann@Example.com",
    first_name := some (some "Ann") }

def c9active : User :=
  { id := 1, username := "ann", email := "ann@x.com", first_name := none,
    last_name := none, is_active := true, created_at := 10, updated_at := 10 }

def c9inactive : User :=
  { id := 2, username := "bob", email := "bob@x.com", first_name := none,
    last_name := none, is_active := false, created_at := 20, updated_at := 20 }

def c10u : User :=
  { id := 1, username := "ann", email := "ann@x.com", first_name := none,
    last_name := none, is_active := true, created_at := 1, updated_at := 1 }

def c10p : Payload :=
  { id := some 999, username := some "zed", created_at := some 888,
    updated_at := some 777 }

/-- The row produced by the first `patchUser [c7u] 1 c7p 5`. -/
def c7res1 : User :=
  { id := 1, username := "dora", email := "new@x.com", first_name := some "Dora",
    last_name := none, is_active := true, created_at := 1, updated_at := 5 }

/-- The row produced by `createUser [] c8p 7 3`. -/
def c8res : User :=
  { id := 7, username := "ann", email := "ann@example.com",
    first_name := some "Ann", last_name := none, is_active := true,
    created_at := 3, updated_at := 3 }

/-- The row produced by `updateUser [c10u] 1 true c10p 9`. -/
def c10res : User :=
  { id := 1, username := "zed", email := "ann@x.com", first_name := none,
    last_name := none, is_active := true, created_at := 1, updated_at := 9 }

theorem toNat_ofNat_small (n : Nat) (h : n < 55296) : (Char.ofNat n).toNat = n := by
  have hv : n.isValidChar := Or.inl h
  simp only [Char.ofNat, hv, dif_pos, Char.ofNatAux, Char.toNat, UInt32.toNat]
  simp [BitVec.toNat_ofNatLt]

theorem lowerChar_idem (c : Char) : lowerChar (lowerChar c) = lowerChar c := by
  unfold lowerChar
  by_cases h : 65 ≤ c.toNat ∧ c.toNat ≤ 90
  · rw [if_pos h]
    have ht : (Char.ofNat (c.toNat + 32)).toNat = c.toNat + 32 :=
      toNat_ofNat_small _ (by omega)
    rw [if_neg (by omega)]
  · rw [if_neg h, if_neg h]

theorem lowerStr_idem (s : String) : lowerStr (lowerStr s) = lowerStr s := by
  unfold lowerStr
  refine congrArg String.mk ?_
  simp only [List.map_map]
  exact List.map_congr_left (fun a _ => by simp [Function.comp, lowerChar_idem])

theorem lowerStr_eq_empty_iff (s : String) : lowerStr s = "" ↔ s = "" := by
  constructor
  · intro h
    have hd : s.data.map lowerChar = [] := congrArg String.data h
    have h0 : s.data = [] := List.map_eq_nil_iff.mp hd
    obtain ⟨d⟩ := s
    exact congrArg String.mk h0
  · intro h; subst h; rfl

theorem normEmail_idem (e : String) : normEmail (normEmail e) = normEmail e := by
  unfold normEmail
  by_cases h : e = ""
  · subst h; rfl
  · have h1 : (e != "") = true := by simpa using h
    rw [if_pos h1]
    have h2 : lowerStr e ≠ "" := fun hc => h ((lowerStr_eq_empty_iff e).mp hc)
    have h3 : (lowerStr e != "") = true := by simpa using h2
    rw [if_pos h3, lowerStr_idem]

theorem getObject_id {db : List User} {uid : Nat} {u : User}
    (h : getObject db uid = some u) : u.id = uid := by
  have hp := List.find?_some h
  simpa using hp

theorem getObject_mem {db : List User} {uid : Nat} {u : User}
    (h : getObject db uid = some u) : u ∈ db :=
  List.mem_of_find?_eq_some h

theorem getObject_replace (db : List User) (i : Nat) (w : User) (hw : w.id = i)
    (hex : (getObject db i).isSome = true) :
    getObject (replaceById db i w) i = some w := by
  induction db with
  | nil => simp [getObject] at hex
  | cons v t ih =>
    show List.find? (fun u => u.id == i) ((if v.id == i then w else v) :: replaceById t i w)
          = some w
    by_cases hv : v.id = i
    · have hb : (v.id == i) = true := by simpa using hv
      rw [if_pos hb]
      exact @List.find?_cons_of_pos User (fun u => u.id == i) w (replaceById t i w)
        (by simpa using hw)
    · have hb : ¬((v.id == i) = true) := by simpa using hv
      rw [if_neg hb,
        @List.find?_cons_of_neg User (fun u => u.id == i) v (replaceById t i w) hb]
      apply ih
      have hskip : getObject (v :: t) i = getObject t i :=
        @List.find?_cons_of_neg User (fun u => u.id == i) v t hb
      rwa [hskip] at hex

theorem any_replace (db : List User) (i : Nat) (w : User) (hw : w.id = i)
    (q : User → Bool) :
    ((replaceById db i w).any (fun v => q v && v.id != i))
      = (db.any (fun v => q v && v.id != i)) := by
  induction db with
  | nil => rfl
  | cons v t ih =>
    show (((if v.id == i then w else v) :: replaceById t i w).any (fun v => q v && v.id != i))
          = ((v :: t).any (fun v => q v && v.id != i))
    rw [List.any_cons, List.any_cons, ih]
    by_cases hv : v.id = i
    · have hb : (v.id == i) = true := by simpa using hv
      rw [if_pos hb]
      have h1 : (w.id != i) = false := by simp [hw]
      have h2 : (v.id != i) = false := by simp [hv]
      rw [h1, h2]
      simp
    · have hb : ¬((v.id == i) = true) := by simpa using hv
      rw [if_neg hb]

/-- C1: on create, email validation rejects with
"A user with this email already exists." exactly when some record holds the
lowercased value; on update, exactly when some record other than the one
being updated holds it. -/
theorem C1_email_duplicate_validation (db : List User) (v : String) (inst : User) :
    (validate_email db none v
        = Except.error "A user with this email already exists."
      ↔ ∃ u ∈ db, u.email = lowerStr v)
    ∧ (validate_email db (some inst) v
        = Except.error "A user with this email already exists."
      ↔ ∃ u ∈ db, u.id ≠ inst.id ∧ u.email = lowerStr v) := by
  constructor
  · simp only [validate_email]
    by_cases h : db.any (fun u => u.email == lowerStr v) = true
    · simp only [h, if_true, true_iff]
      rcases List.any_eq_true.mp h with ⟨u, hu, hp⟩
      exact ⟨u, hu, by simpa using hp⟩
    · rw [if_neg h]
      constructor
      · intro hc; cases hc
      · rintro ⟨u, hu, he⟩
        exact absurd (List.any_eq_true.mpr ⟨u, hu, by simpa using he⟩) h
  · simp only [validate_email]
    by_cases h : db.any (fun u => u.email == lowerStr v && u.id != inst.id) = true
    · simp only [h, if_true, true_iff]
      rcases List.any_eq_true.mp h with ⟨u, hu, hp⟩
      have hp' := hp
      simp only [Bool.and_eq_true, beq_iff_eq, bne_iff_ne] at hp'
      exact ⟨u, hu, hp'.2, hp'.1⟩
    · rw [if_neg h]
      constructor
      · intro hc; cases hc
      · rintro ⟨u, hu, hne, he⟩
        refine absurd (List.any_eq_true.mpr ⟨u, hu, ?_⟩) h
        simp [he, hne]

/-- C2: the claimed two-column case-insensitive OR search.  The code filters
on a `name` column the `User` model does not declare, so every List request
with a non-empty `search` raises Django's `FieldError` (an unhandled 500),
instead of returning 200 with the filtered records. -/
theorem C2_search_raises_field_error :
    listUsers [c2u] { search := some "john" }
        = Except.error (ApiError.fieldError "name")
    ∧ listUsers [] { is_active := some "true", search := some "x" }
        = Except.error (ApiError.fieldError "name") :=
  ⟨rfl, rfl⟩

/-- C3 counterexample: a List request over a table whose newer record sits
first returns ascending-id order `[c3Old, c3New]` — the older record first —
not the claimed newest-first-by-created_at order. -/
theorem C3_counterexample :
    listUsers [c3New, c3Old] {} = Except.ok [c3Old, c3New]
    ∧ c3Old.created_at < c3New.created_at :=
  ⟨rfl, by decide⟩

/-- C3 amended: every successful List response is ordered ascending by `id`
(`get_queryset` ends in `order_by('id')`, overriding the model Meta's
newest-first default), and without `search` it is a permutation of the
`is_active`-filtered table. -/
theorem C3_amended_list_ordered_by_id (db : List User) (q : QueryParams)
    (l : List User) (h : listUsers db q = Except.ok l) :
    l.Sorted (fun a b => a.id ≤ b.id)
    ∧ (q.search = none → l.Perm (activeFilter db q.is_active)) := by
  cases hs : q.search with
  | none =>
    simp only [listUsers, getQueryset, hs, Except.ok.injEq] at h
    subst h
    exact ⟨List.sorted_insertionSort _ _, fun _ => List.perm_insertionSort _ _⟩
  | some s =>
    simp only [listUsers, getQueryset, hs] at h
    by_cases hb : (s != "") = true
    · rw [if_pos hb] at h
      have hname : filterIContains (activeFilter db q.is_active) "name" s
          = Except.error (ApiError.fieldError "name") := by
        unfold filterIContains
        rw [if_neg (by decide)]
      simp only [hname] at h
      cases h
    · rw [if_neg hb] at h
      simp only [Except.ok.injEq] at h
      subst h
      refine ⟨List.sorted_insertionSort _ _, fun hc => ?_⟩
      cases hc

theorem C3_amended_witness :
    ([c3Old, c3New] : List User).Sorted (fun a b => a.id ≤ b.id) :=
  (C3_amended_list_ordered_by_id [c3New, c3Old] {} [c3Old, c3New] rfl).1

/-- C4 counterexample: a record whose only present name field is
`last_name` serializes `full_name` as the username (`"bob"`), not the lone
present name field (`"Lee"`) as the claim requires. -/
theorem C4_counterexample :
    c4OnlyLast.first_name = none ∧ c4OnlyLast.last_name = some "Lee"
    ∧ c4OnlyLast.username = "bob"
    ∧ User.get_full_name c4OnlyLast = "bob"
    ∧ User.get_full_name c4OnlyLast ≠ "Lee" :=
  ⟨rfl, rfl, rfl, rfl, by decide⟩

/-- C4 amended: `full_name` is `first_name + " " + last_name` when both are
present (truthy), else `first_name` when it alone is present, else
`username` — a record with only `last_name` present falls back to
`username`. -/
theorem C4_amended_full_name (u : User) :
    (truthy u.first_name = true → truthy u.last_name = true →
      User.get_full_name u = (u.first_name.getD "") ++ " " ++ (u.last_name.getD ""))
    ∧ (truthy u.first_name = true → truthy u.last_name = false →
      User.get_full_name u = u.first_name.getD "")
    ∧ (truthy u.first_name = false → User.get_full_name u = u.username) := by
  unfold User.get_full_name
  refine ⟨fun h1 h2 => ?_, fun h1 h2 => ?_, fun h1 => ?_⟩
  · rw [if_pos (by simp [h1, h2])]
  · rw [if_neg (by simp [h1, h2]), if_pos h1]
  · rw [if_neg (by simp [h1]), if_neg (by simp [h1])]

theorem C4_amended_witness :
    User.get_full_name c4OnlyLast = c4OnlyLast.username :=
  (C4_amended_full_name c4OnlyLast).2.2 rfl

theorem lowerStr_normEmail (e : String) : lowerStr (normEmail e) = normEmail e := by
  unfold normEmail
  by_cases h : e = ""
  · subst h; rfl
  · rw [if_pos (by simpa using h)]
    exact lowerStr_idem e

/-- C5: every persist path (create, PUT, PATCH, activate, deactivate) goes
through `User.save`, after which the stored email equals its own lowercase
form; and two distinct all-lowercase emails stay distinct after
lowercasing, so uniqueness of the stored values is case-insensitive. -/
theorem C5_email_stored_lowercase :
    (∀ (u : User) (now : Nat),
      lowerStr ((User.save u now).email) = (User.save u now).email)
    ∧ (∀ (db : List User) (p : Payload) (nid now : Nat) (u : User) (db' : List User),
      createUser db p nid now = Except.ok (u, db') → lowerStr u.email = u.email)
    ∧ (∀ (db : List User) (uid : Nat) (pm : Bool) (p : Payload) (now : Nat)
        (u : User) (db' : List User),
      updateUser db uid pm p now = Except.ok (u, db') → lowerStr u.email = u.email)
    ∧ (∀ (db : List User) (uid now : Nat) (r : String × User × List User),
      activateUser db uid now = Except.ok r → lowerStr r.2.1.email = r.2.1.email)
    ∧ (∀ (db : List User) (uid now : Nat) (r : String × User × List User),
      deactivateUser db uid now = Except.ok r → lowerStr r.2.1.email = r.2.1.email)
    ∧ (∀ e1 e2 : String, lowerStr e1 = e1 → lowerStr e2 = e2 → e1 ≠ e2 →
      lowerStr e1 ≠ lowerStr e2) := by
  refine ⟨fun u now => lowerStr_normEmail u.email, ?_, ?_, ?_, ?_, ?_⟩
  · intro db p nid now u db' h
    cases hv : runValidation db none false p with
    | error es => simp only [createUser, hv] at h; cases h
    | ok vd =>
      simp only [createUser, hv, Except.ok.injEq, Prod.mk.injEq] at h
      obtain ⟨h1, h2⟩ := h
      rw [← h1]
      exact lowerStr_normEmail _
  · intro db uid pm p now u db' h
    cases hg : getObject db uid with
    | none => simp only [updateUser, hg] at h; cases h
    | some inst =>
      cases hv : runValidation db (some inst) pm p with
      | error es => simp only [updateUser, hg, hv] at h; cases h
      | ok vd =>
        simp only [updateUser, hg, hv, Except.ok.injEq, Prod.mk.injEq] at h
        obtain ⟨h1, h2⟩ := h
        rw [← h1]
        exact lowerStr_normEmail _
  · intro db uid now r h
    cases hg : getObject db uid with
    | none => simp only [activateUser, hg] at h; cases h
    | some u0 =>
      simp only [activateUser, hg, Except.ok.injEq] at h
      rw [← h]
      exact lowerStr_normEmail _
  · intro db uid now r h
    cases hg : getObject db uid with
    | none => simp only [deactivateUser, hg] at h; cases h
    | some u0 =>
      simp only [deactivateUser, hg, Except.ok.injEq] at h
      rw [← h]
      exact lowerStr_normEmail _
  · intro e1 e2 h1 h2 hne
    rw [h1, h2]
    exact hne

theorem C5_witness :
    lowerStr ((User.save c5u 4).email) = (User.save c5u 4).email
    ∧ lowerStr "a@x.com" ≠ lowerStr "b@x.com" :=
  ⟨C5_email_stored_lowercase.1 c5u 4,
   C5_email_stored_lowercase.2.2.2.2.2 "a@x.com" "b@x.com"
     (by decide) (by decide) (by decide)⟩

/-- C6 counterexample: with the empty body, PUT rejects with required-field
errors while PATCH succeeds and leaves the stored values unchanged (only
`updated_at` refreshes) — the two verbs do not give the same outcome for
every payload. -/
theorem C6_counterexample :
    putUser [c6u] 1 {} 5
      = Except.error (ApiError.badRequest
          [("username", "This field is required."),
           ("email", "This field is required.")])
    ∧ patchUser [c6u] 1 {} 5
      = Except.ok ({ c6u with updated_at := 5 }, [{ c6u with updated_at := 5 }])
    ∧ putUser [c6u] 1 {} 5 ≠ patchUser [c6u] 1 {} 5 := by
  have h1 : putUser [c6u] 1 {} 5
      = Except.error (ApiError.badRequest
          [("username", "This field is required."),
           ("email", "This field is required.")]) := rfl
  have h2 : patchUser [c6u] 1 {} 5
      = Except.ok ({ c6u with updated_at := 5 }, [{ c6u with updated_at := 5 }]) := rfl
  refine ⟨h1, h2, ?_⟩
  intro h
  rw [h1, h2] at h
  cases h

/-- C6 amended: PUT and PATCH produce identical outcomes whenever the body
supplies both required fields (`username` and `email`); for such payloads
every other missing field falls back to the stored value under either verb. -/
theorem C6_amended_put_eq_patch (db : List User) (uid : Nat) (p : Payload)
    (now : Nat) (hu : p.username.isSome = true) (he : p.email.isSome = true) :
    putUser db uid p now = patchUser db uid p now := by
  cases hg : getObject db uid with
  | none => simp [putUser, patchUser, updateUser, hg]
  | some inst =>
    have h1 : checkUsername db (some inst) false p
        = checkUsername db (some inst) true p := by
      cases hpu : p.username with
      | none => rw [hpu] at hu; cases hu
      | some v => simp [checkUsername, hpu]
    have h2 : checkEmail db (some inst) false p
        = checkEmail db (some inst) true p := by
      cases hpe : p.email with
      | none => rw [hpe] at he; cases he
      | some v => simp [checkEmail, hpe]
    have hval : runValidation db (some inst) false p
        = runValidation db (some inst) true p := by
      simp only [runValidation, h1, h2]
    simp only [putUser, patchUser, updateUser, hg, hval]

theorem C6_amended_witness :
    putUser [c6u] 1 c6p 5 = patchUser [c6u] 1 c6p 5 :=
  C6_amended_put_eq_patch [c6u] 1 c6p 5 (by decide) (by decide)

/-- C10: a successful update (PUT or PATCH) never changes the record's `id`
or `created_at`, whatever keys the body carries — including bodies holding
`id`, `created_at` or `updated_at` keys, which the serializer treats as
read-only and the update logic never assigns. -/
theorem C10_update_preserves_id_created_at (db : List User) (uid : Nat)
    (pm : Bool) (p : Payload) (now : Nat) (inst u' : User) (db' : List User)
    (hg : getObject db uid = some inst)
    (h : updateUser db uid pm p now = Except.ok (u', db')) :
    u'.id = inst.id ∧ u'.created_at = inst.created_at := by
  cases hv : runValidation db (some inst) pm p with
  | error es => simp only [updateUser, hg, hv] at h; cases h
  | ok vd =>
    simp only [updateUser, hg, hv, Except.ok.injEq, Prod.mk.injEq] at h
    obtain ⟨h1, h2⟩ := h
    rw [← h1]
    exact ⟨rfl, rfl⟩

theorem C10_witness :
    c10res.id = c10u.id ∧ c10res.created_at = c10u.created_at :=
  C10_update_preserves_id_created_at [c10u] 1 true c10p 9 c10u c10res [c10res]
    rfl rfl

theorem getD_getD (o : Option α) (x : α) : o.getD (o.getD x) = o.getD x := by
  cases o <;> rfl

theorem validate_username_ok_val {db : List User} {inst : Option User}
    {v w : String} (h : validate_username db inst v = Except.ok w) : w = v := by
  cases inst with
  | none =>
    simp only [validate_username] at h
    split at h
    · cases h
    · injection h with h1; exact h1.symm
  | some i =>
    simp only [validate_username] at h
    split at h
    · cases h
    · injection h with h1; exact h1.symm

theorem validate_email_ok_val {db : List User} {inst : Option User}
    {v w : String} (h : validate_email db inst v = Except.ok w) : w = lowerStr v := by
  cases inst with
  | none =>
    simp only [validate_email] at h
    split at h
    · cases h
    · injection h with h1; exact h1.symm
  | some i =>
    simp only [validate_email] at h
    split at h
    · cases h
    · injection h with h1; exact h1.symm

theorem runValidation_ok_parts {db : List User} {inst : Option User} {pm : Bool}
    {p : Payload} {vd : ValidatedData}
    (h : runValidation db inst pm p = Except.ok vd) :
    checkUsername db inst pm p = Except.ok vd.username
    ∧ checkEmail db inst pm p = Except.ok vd.email
    ∧ checkFirstName p = Except.ok vd.first_name
    ∧ checkLastName p = Except.ok vd.last_name
    ∧ checkIsActive p = Except.ok vd.is_active := by
  cases hcu : checkUsername db inst pm p with
  | error m => simp only [runValidation, hcu] at h; cases h
  | ok u0 =>
    cases hce : checkEmail db inst pm p with
    | error m => simp only [runValidation, hcu, hce] at h; cases h
    | ok e0 =>
      cases hcf : checkFirstName p with
      | error m => simp only [runValidation, hcu, hce, hcf] at h; cases h
      | ok f0 =>
        cases hcl : checkLastName p with
        | error m => simp only [runValidation, hcu, hce, hcf, hcl] at h; cases h
        | ok l0 =>
          cases hca : checkIsActive p with
          | error m => simp only [runValidation, hcu, hce, hcf, hcl, hca] at h; cases h
          | ok a0 =>
            simp only [runValidation, hcu, hce, hcf, hcl, hca, Except.ok.injEq] at h
            subst h
            exact ⟨rfl, rfl, rfl, rfl, rfl⟩

theorem checkUsername_ok_val {db : List User} {inst : Option User} {pm : Bool}
    {p : Payload} {v : String} {u0 : Option String}
    (hp : p.username = some v) (h : checkUsername db inst pm p = Except.ok u0) :
    u0 = some v := by
  simp only [checkUsername, hp] at h
  split at h
  · cases h
  · split at h
    · cases h
    · split at h
      · cases h
      · cases hw : validate_username db inst v with
        | error m => rw [hw] at h; cases h
        | ok w =>
          rw [hw] at h
          have h' : Except.ok (ε := String) (some w) = Except.ok u0 := h
          injection h' with h1
          rw [← h1, validate_username_ok_val hw]

theorem checkEmail_ok_val {db : List User} {inst : Option User} {pm : Bool}
    {p : Payload} {v : String} {e0 : Option String}
    (hp : p.email = some v) (h : checkEmail db inst pm p = Except.ok e0) :
    e0 = some (lowerStr v) ∧ v ≠ "" := by
  simp only [checkEmail, hp] at h
  split at h
  next hblank => cases h
  next hblank =>
    have hvne : v ≠ "" := by simpa using hblank
    split at h
    · cases h
    · cases hw : validate_email db inst v with
      | error m => rw [hw] at h; cases h
      | ok w =>
        rw [hw] at h
        have h' : Except.ok (ε := String) (some w) = Except.ok e0 := h
        injection h' with h1
        exact ⟨by rw [← h1, validate_email_ok_val hw], hvne⟩

theorem checkFirstName_ok_val {p : Payload} {fn : Option String}
    {f0 : Option (Option String)} (hp : p.first_name = some fn)
    (h : checkFirstName p = Except.ok f0) : f0 = some fn := by
  cases fn with
  | none =>
    simp only [checkFirstName, hp] at h
    injection h with h1
    exact h1.symm
  | some s =>
    simp only [checkFirstName, hp] at h
    split at h
    · cases h
    · injection h with h1; exact h1.symm

theorem checkLastName_ok_val {p : Payload} {lv : Option String}
    {l0 : Option (Option String)} (hp : p.last_name = some lv)
    (h : checkLastName p = Except.ok l0) : l0 = some lv := by
  cases lv with
  | none =>
    simp only [checkLastName, hp] at h
    injection h with h1
    exact h1.symm
  | some s =>
    simp only [checkLastName, hp] at h
    split at h
    · cases h
    · injection h with h1; exact h1.symm

theorem checkIsActive_ok_val {p : Payload} {b : Bool} {a0 : Option Bool}
    (hp : p.is_active = some b) (h : checkIsActive p = Except.ok a0) :
    a0 = some b := by
  simp only [checkIsActive, hp] at h
  injection h with h1
  exact h1.symm

theorem getObject_append_fresh (db : List User) (u : User) (nid : Nat)
    (hfresh : ∀ v ∈ db, v.id ≠ nid) (hu : u.id = nid) :
    getObject (db ++ [u]) nid = some u := by
  induction db with
  | nil =>
    show List.find? (fun x => x.id == nid) [u] = some u
    exact List.find?_cons_of_pos _ (by simpa using hu)
  | cons v t ih =>
    have hv : v.id ≠ nid := hfresh v (List.mem_cons_self v t)
    show List.find? (fun x => x.id == nid) (v :: (t ++ [u])) = some u
    rw [List.find?_cons_of_neg _ (by simpa using hv)]
    exact ih (fun w hw => hfresh w (List.mem_cons_of_mem v hw))

theorem getObject_replace_at (db : List User) (i j : Nat) (w : User)
    (hij : i = j) (hw : w.id = j) (hex : (getObject db j).isSome = true) :
    getObject (replaceById db i w) j = some w := by
  subst hij
  exact getObject_replace db i w hw hex

theorem serializerUpdate_idem (inst : User) (vd : ValidatedData) (t1 t2 : Nat) :
    serializerUpdate (serializerUpdate inst vd t1) vd t2
      = { serializerUpdate inst vd t1 with updated_at := t2 } := by
  obtain ⟨vu, ve, vf, vl, va⟩ := vd
  cases vu <;> cases ve <;> cases vf <;> cases vl <;> cases va <;>
    simp [serializerUpdate, User.save, normEmail_idem]

/-- C7: PATCH is idempotent on stored field values — when a PATCH succeeds,
repeating it against the updated database succeeds and returns the very
same record except that `updated_at` advances to the new clock value. -/
theorem C7_patch_idempotent (db : List User) (uid : Nat) (p : Payload)
    (t1 t2 : Nat) (u1 : User) (db1 : List User)
    (h : patchUser db uid p t1 = Except.ok (u1, db1)) :
    ∃ db2, patchUser db1 uid p t2
      = Except.ok ({ u1 with updated_at := t2 }, db2) := by
  cases hg : getObject db uid with
  | none => simp only [patchUser, updateUser, hg] at h; cases h
  | some inst =>
    cases hv : runValidation db (some inst) true p with
    | error es => simp only [patchUser, updateUser, hg, hv] at h; cases h
    | ok vd =>
      simp only [patchUser, updateUser, hg, hv, Except.ok.injEq, Prod.mk.injEq] at h
      obtain ⟨h1, h2⟩ := h
      have hinstid : inst.id = uid := getObject_id hg
      have hu1id : u1.id = uid := by rw [← h1]; exact hinstid
      have hdb1 : db1 = replaceById db uid u1 := by
        rw [← h2, ← h1, hinstid]
      have hfind1 : getObject db1 uid = some u1 := by
        rw [hdb1]
        exact getObject_replace db uid u1 hu1id (by rw [hg]; rfl)
      have hanyU : ∀ (q : User → Bool),
          (db1.any (fun x => q x && x.id != uid))
            = (db.any (fun x => q x && x.id != uid)) := by
        intro q
        rw [hdb1]
        exact any_replace db uid u1 hu1id q
      have hvu : ∀ v, validate_username db1 (some u1) v
          = validate_username db (some inst) v := by
        intro v
        simp only [validate_username, hu1id, hinstid, hanyU]
      have hve : ∀ v, validate_email db1 (some u1) v
          = validate_email db (some inst) v := by
        intro v
        simp only [validate_email, hu1id, hinstid, hanyU]
      have hcu : checkUsername db1 (some u1) true p
          = checkUsername db (some inst) true p := by
        cases hpu : p.username with
        | none => simp [checkUsername, hpu]
        | some v => simp only [checkUsername, hpu, hvu]
      have hce : checkEmail db1 (some u1) true p
          = checkEmail db (some inst) true p := by
        cases hpe : p.email with
        | none => simp [checkEmail, hpe]
        | some v => simp only [checkEmail, hpe, hve]
      have hval1 : runValidation db1 (some u1) true p = Except.ok vd := by
        have heq : runValidation db1 (some u1) true p
            = runValidation db (some inst) true p := by
          simp only [runValidation, hcu, hce]
        rw [heq, hv]
      have hupd : serializerUpdate u1 vd t2 = { u1 with updated_at := t2 } := by
        rw [← h1]
        exact serializerUpdate_idem inst vd t1 t2
      simp only [patchUser, updateUser, hfind1, hval1, hupd]
      exact ⟨_, rfl⟩

theorem C7_witness :
    ∃ db2, patchUser [c7res1] 1 c7p 9
      = Except.ok ({ c7res1 with updated_at := 9 }, db2) :=
  C7_patch_idempotent [c7u] 1 c7p 5 9 c7res1 [c7res1] rfl

/-- C8: POST then GET round-trip — after a successful create with a fresh
server-assigned id, retrieving that id returns exactly the stored record,
whose fields equal the supplied payload fields except for the
server-assigned `id`/timestamps and the lowercased email. -/
theorem C8_create_roundtrip (db : List User) (p : Payload) (nid now : Nat)
    (u : User) (db' : List User)
    (h : createUser db p nid now = Except.ok (u, db'))
    (hfresh : ∀ v ∈ db, v.id ≠ nid) :
    retrieveUser db' nid = Except.ok u
    ∧ u.id = nid
    ∧ (∀ un, p.username = some un → u.username = un)
    ∧ (∀ em, p.email = some em → u.email = lowerStr em)
    ∧ (∀ fn, p.first_name = some fn → u.first_name = fn)
    ∧ (∀ lv, p.last_name = some lv → u.last_name = lv)
    ∧ (∀ b, p.is_active = some b → u.is_active = b) := by
  cases hv : runValidation db none false p with
  | error es => simp only [createUser, hv] at h; cases h
  | ok vd =>
    simp only [createUser, hv, Except.ok.injEq, Prod.mk.injEq] at h
    obtain ⟨h1, h2⟩ := h
    obtain ⟨hcu, hce, hcf, hcl, hca⟩ := runValidation_ok_parts hv
    have hid : u.id = nid := by rw [← h1]; rfl
    refine ⟨?_, hid, ?_, ?_, ?_, ?_, ?_⟩
    · rw [← h2, h1]
      simp only [retrieveUser, getObject_append_fresh db u nid hfresh hid]
    · intro un hun
      have hvd : vd.username = some un := checkUsername_ok_val hun hcu
      rw [← h1]
      show vd.username.getD "" = un
      rw [hvd]; rfl
    · intro em hem
      obtain ⟨hvd, hne⟩ := checkEmail_ok_val hem hce
      rw [← h1]
      show normEmail (vd.email.getD "") = lowerStr em
      rw [hvd]
      show normEmail (lowerStr em) = lowerStr em
      have hlem : lowerStr em ≠ "" := fun hc => hne ((lowerStr_eq_empty_iff em).mp hc)
      unfold normEmail
      rw [if_pos (by simpa using hlem)]
      exact lowerStr_idem em
    · intro fn hfn
      have hvd : vd.first_name = some fn := checkFirstName_ok_val hfn hcf
      rw [← h1]
      show vd.first_name.getD none = fn
      rw [hvd]; rfl
    · intro lv hlv
      have hvd : vd.last_name = some lv := checkLastName_ok_val hlv hcl
      rw [← h1]
      show vd.last_name.getD none = lv
      rw [hvd]; rfl
    · intro b hb
      have hvd : vd.is_active = some b := checkIsActive_ok_val hb hca
      rw [← h1]
      show vd.is_active.getD true = b
      rw [hvd]; rfl

theorem C8_witness :
    retrieveUser [c8res] 7 = Except.ok c8res
    ∧ c8res.email = lowerStr "Ann@Example.com" := by
  have h := C8_create_roundtrip [] c8p 7 3 c8res [c8res] rfl (by simp)
  exact ⟨h.1, h.2.2.2.1 "Ann@Example.com" rfl⟩

/-- C9: activating an inactive record sets `is_active=true` in the action
response and in a subsequent GET of the record; the record is in
`active_users` afterwards and — with unique ids — was not in it
beforehand; symmetrically, every successful deactivate leaves
`is_active=false` on the returned record. -/
theorem C9_activate_deactivate (db : List User) (uid now : Nat) (u : User)
    (hfind : getObject db uid = some u) (hinactive : u.is_active = false)
    (hnodup : (db.map (fun v => v.id)).Nodup) :
    ∃ u2 db2,
      activateUser db uid now
        = Except.ok ("User activated successfully", u2, db2)
      ∧ u2.is_active = true
      ∧ getObject db2 uid = some u2
      ∧ u2 ∈ active_users db2
      ∧ (∀ v ∈ active_users db, v.id ≠ uid)
      ∧ (∀ (db3 : List User) (uid3 now3 : Nat) (r : String × User × List User),
          deactivateUser db3 uid3 now3 = Except.ok r → r.2.1.is_active = false) := by
  have huid : u.id = uid := getObject_id hfind
  have humem : u ∈ db := getObject_mem hfind
  refine ⟨User.save { u with is_active := true } now,
    replaceById db u.id (User.save { u with is_active := true } now), ?_, rfl, ?_, ?_, ?_, ?_⟩
  · simp only [activateUser, hfind]
  · exact getObject_replace_at db u.id uid (User.save { u with is_active := true } now)
      huid huid (by rw [hfind]; rfl)
  · have hmem2 : User.save { u with is_active := true } now
        ∈ replaceById db u.id (User.save { u with is_active := true } now) := by
      unfold replaceById
      exact List.mem_map.mpr ⟨u, humem, by simp⟩
    have hfil : User.save { u with is_active := true } now
        ∈ (replaceById db u.id (User.save { u with is_active := true } now)).filter
            (fun v => v.is_active) :=
      List.mem_filter.mpr ⟨hmem2, rfl⟩
    exact (List.perm_insertionSort _ _).mem_iff.mpr hfil
  · intro v hv hvid
    have hvf : v ∈ db.filter (fun x => x.is_active) :=
      (List.perm_insertionSort _ _).mem_iff.mp hv
    obtain ⟨hvmem, hvact⟩ := List.mem_filter.mp hvf
    have hveq : v = u :=
      List.inj_on_of_nodup_map hnodup hvmem humem (by rw [hvid, huid])
    rw [hveq] at hvact
    rw [hinactive] at hvact
    cases hvact
  · intro db3 uid3 now3 r h3
    cases hg3 : getObject db3 uid3 with
    | none => simp only [deactivateUser, hg3] at h3; cases h3
    | some u0 =>
      simp only [deactivateUser, hg3, Except.ok.injEq] at h3
      rw [← h3]
      rfl

theorem C9_witness :
    ∃ u2 db2,
      activateUser [c9active, c9inactive] 2 30
        = Except.ok ("User activated successfully", u2, db2)
      ∧ u2.is_active = true
      ∧ getObject db2 2 = some u2
      ∧ u2 ∈ active_users db2
      ∧ (∀ v ∈ active_users [c9active, c9inactive], v.id ≠ 2)
      ∧ (∀ (db3 : List User) (uid3 now3 : Nat) (r : String × User × List User),
          deactivateUser db3 uid3 now3 = Except.ok r → r.2.1.is_active = false) :=
  C9_activate_deactivate [c9active, c9inactive] 2 30 c9inactive rfl rfl (by decide)

end HelloAPI
